import Mathlib

/-!
Verification of the configuration engine of the cline CLI (Go sources under
pkg/cli/config, pkg/cli/models, pkg/cli/setup).

Go maps are embedded as association lists with unique keys and list order
standing in for iteration order; Go strings are Lean strings (Go string to
byte-slice conversion is modeled by String.data); the AES-GCM cipher and the
base64 codec from the Go standard library are abstracted as parameters with
their documented contracts stated as hypotheses where needed.
-/

namespace Cline

/-- Association list standing in for a Go map with string keys. -/
abbrev Lmap (α : Type) := List (String × α)

/-- Lookup of a key in an association-list map, mirroring Go map indexing
with an existence flag. -/
def lookupL {α : Type} : Lmap α → String → Option α
  | [], _ => none
  | (k, v) :: rest, key => if k = key then some v else lookupL rest key

/-- Go map read with the zero value as default, mirroring m[k] on a string
map (a missing key reads as the empty string). -/
def lookupD (m : Lmap String) (key : String) : String :=
  (lookupL m key).getD ""

/-- Go map write m[k] = v: replaces the binding if the key is present,
appends it otherwise. -/
def insertL {α : Type} : Lmap α → String → α → Lmap α
  | [], key, v => [(key, v)]
  | (k, w) :: rest, key, v =>
    if k = key then (key, v) :: rest else (k, w) :: insertL rest key v

/-- Go map membership test. -/
def containsL {α : Type} : Lmap α → String → Bool
  | [], _ => false
  | (k, _) :: rest, key => k = key || containsL rest key

/-- Go delete(m, k). -/
def removeL {α : Type} (m : Lmap α) (key : String) : Lmap α :=
  m.filter (fun e => e.1 ≠ key)

/-- ModelInfo from pkg/cli/config/manager.go: model capabilities and pricing
as persisted in the config file. Prices are Go float64 values, modeled as
rationals. -/
structure ModelInfo where
  maxTokens : Int
  contextWindow : Int
  supportsImages : Bool
  inputPrice : ℚ
  outputPrice : ℚ
  description : String
deriving DecidableEq

/-- The all-zero ModelInfo, the Go zero value of the struct. -/
def ModelInfo.zero : ModelInfo :=
  { maxTokens := 0, contextWindow := 0, supportsImages := false,
    inputPrice := 0, outputPrice := 0, description := "" }

/-- generated.ModelInfo: the catalog-side model record, which additionally
carries a prompt-cache capability flag. -/
structure GenModelInfo where
  maxTokens : Int
  contextWindow : Int
  supportsImages : Bool
  supportsPromptCache : Bool
  inputPrice : ℚ
  outputPrice : ℚ
  description : String
deriving DecidableEq

/-- generated.ConfigField: one named input slot of a provider definition. -/
structure ConfigField where
  name : String
  required : Bool
deriving DecidableEq

/-- generated.ProviderDefinition: catalog entry for one provider. -/
structure ProviderDefinition where
  id : String
  name : String
  requiredFields : List ConfigField
  optionalFields : List ConfigField
  hasDynamicModels : Bool
  models : Lmap GenModelInfo
  defaultModelID : String
  setupInstructions : String
deriving DecidableEq

/-- ProviderConfig from pkg/cli/config/manager.go: one configured provider.
The Go nil map for ExtraConfig is identified with the empty list. -/
structure ProviderConfig where
  id : String
  name : String
  apiKey : String
  baseUrl : String
  modelId : String
  modelInfo : ModelInfo
  extraConfig : Lmap String
deriving DecidableEq

/-- CLIConfig from pkg/cli/config/manager.go: the whole persisted document.
Timestamps are modeled as naturals with 0 standing for the Go zero time. -/
structure CLIConfig where
  version : String
  encryptionNote : String
  defaultProvider : String
  providers : Lmap ProviderConfig
  createdAt : Nat
  updatedAt : Nat
deriving DecidableEq

/-- MapFieldToConfig from pkg/cli/setup (field mapper): routes a named field
value into the apiKey slot, the baseUrl slot, or a key of extraConfig,
following the switch on the field name in the source. -/
def MapFieldToConfig (field : ConfigField) (value : String)
    (pc : ProviderConfig) : ProviderConfig :=
  match field.name with
  | "apiKey" => { pc with apiKey := value }
  | "anthropicApiKey" | "cerebrasApiKey" | "deepSeekApiKey" | "xaiApiKey"
  | "groqApiKey" | "geminiApiKey" | "openAiApiKey" | "openAiNativeApiKey"
  | "openRouterApiKey" | "qwenApiKey" | "doubaoApiKey" | "mistralApiKey"
  | "fireworksApiKey" | "huggingFaceApiKey" | "moonshotApiKey"
  | "sambanovaApiKey" | "sapAiCoreApiKey" | "basetenApiKey"
  | "nebiusApiKey" | "askSageApiKey" | "togetherApiKey"
  | "liteLLMApiKey" | "difyApiKey" | "zaiApiKey" | "requestyApiKey" =>
    { pc with apiKey := value }
  | "awsAccessKey" =>
    { pc with extraConfig := insertL pc.extraConfig "aws_access_key" value }
  | "awsSecretKey" =>
    { pc with extraConfig := insertL pc.extraConfig "aws_secret_key" value }
  | "awsSessionToken" =>
    { pc with extraConfig := insertL pc.extraConfig "aws_session_token" value }
  | "awsRegion" =>
    { pc with extraConfig := insertL pc.extraConfig "aws_region" value }
  | "vertexProjectId" =>
    { pc with extraConfig := insertL pc.extraConfig "vertex_project_id" value }
  | "vertexRegion" =>
    { pc with extraConfig := insertL pc.extraConfig "vertex_region" value }
  | "ollamaBaseUrl" | "lmStudioBaseUrl" | "openAiBaseUrl"
  | "liteLLMBaseUrl" | "fireworksBaseUrl" =>
    { pc with baseUrl := value }
  | other =>
    { pc with extraConfig := insertL pc.extraConfig other value }

/-- Loop body of ValidateRequiredFields: whether the destination slot that
the validator associates with a field name holds a non-empty value, per the
switch in the source. -/
def requiredHasValue (pc : ProviderConfig) (name : String) : Bool :=
  match name with
  | "apiKey" | "anthropicApiKey" | "cerebrasApiKey" | "deepSeekApiKey"
  | "xaiApiKey" | "groqApiKey" | "geminiApiKey" | "openAiApiKey"
  | "openAiNativeApiKey" | "openRouterApiKey" | "qwenApiKey"
  | "doubaoApiKey" | "mistralApiKey" | "fireworksApiKey"
  | "huggingFaceApiKey" | "moonshotApiKey" | "sambanovaApiKey"
  | "sapAiCoreApiKey" | "basetenApiKey" | "nebiusApiKey"
  | "askSageApiKey" | "togetherApiKey" | "liteLLMApiKey"
  | "difyApiKey" | "zaiApiKey" | "requestyApiKey" =>
    pc.apiKey ≠ ""
  | "awsAccessKey" => lookupD pc.extraConfig "aws_access_key" ≠ ""
  | "awsSecretKey" => lookupD pc.extraConfig "aws_secret_key" ≠ ""
  | "awsRegion" => lookupD pc.extraConfig "aws_region" ≠ ""
  | "vertexProjectId" => lookupD pc.extraConfig "vertex_project_id" ≠ ""
  | "vertexRegion" => lookupD pc.extraConfig "vertex_region" ≠ ""
  | "ollamaBaseUrl" | "lmStudioBaseUrl" => pc.baseUrl ≠ ""
  | other =>
    match lookupL pc.extraConfig other with
    | some v => v ≠ ""
    | none => false

/-- ValidateRequiredFields from pkg/cli/setup: returns the name of the first
required field whose destination slot is missing or empty, or none when all
required fields are satisfied. -/
def ValidateRequiredFields (providerID : String) (pc : ProviderConfig) :
    List ConfigField → Option String
  | [] => none
  | field :: rest =>
    if requiredHasValue pc field.name then
      ValidateRequiredFields providerID pc rest
    else
      some field.name

/-- The empty provider config (Go zero value). -/
def ProviderConfig.empty : ProviderConfig :=
  { id := "", name := "", apiKey := "", baseUrl := "", modelId := "",
    modelInfo := ModelInfo.zero, extraConfig := [] }

/-- Field names that the mapper switch routes into the apiKey slot. -/
def apiKeySlotNames : List String :=
  ["apiKey", "anthropicApiKey", "cerebrasApiKey", "deepSeekApiKey",
   "xaiApiKey", "groqApiKey", "geminiApiKey", "openAiApiKey",
   "openAiNativeApiKey", "openRouterApiKey", "qwenApiKey", "doubaoApiKey",
   "mistralApiKey", "fireworksApiKey", "huggingFaceApiKey", "moonshotApiKey",
   "sambanovaApiKey", "sapAiCoreApiKey", "basetenApiKey", "nebiusApiKey",
   "askSageApiKey", "togetherApiKey", "liteLLMApiKey", "difyApiKey",
   "zaiApiKey", "requestyApiKey"]

/-- Per-provider check loop of ConfigManager.Validate: returns the first
error among ID mismatch, empty name, empty API key and empty model id, in
the order of the source, or none. -/
def validateProviders : Lmap ProviderConfig → Option String
  | [] => none
  | (id, p) :: rest =>
    if p.id ≠ id then
      some ("provider ID mismatch: " ++ p.id ++ " != " ++ id)
    else if p.name = "" then
      some ("provider " ++ id ++ " has empty name")
    else if p.apiKey = "" then
      some ("provider " ++ id ++ " has empty API key")
    else if p.modelId = "" then
      some ("provider " ++ id ++ " has empty model ID")
    else
      validateProviders rest

/-- ConfigManager.Validate from pkg/cli/config/manager.go, over an optional
config (none standing for the Go nil pointer). -/
def Validate : Option CLIConfig → Option String
  | none => some "config is nil"
  | some c =>
    if c.defaultProvider ≠ "" ∧ containsL c.providers c.defaultProvider = false then
      some ("default provider " ++ c.defaultProvider ++ " not found in providers")
    else
      validateProviders c.providers

/-- Claim-side notion, following the wording of C5: a required field whose
name the mapper routing table sends to the apiKey slot. -/
def requiresApiKeyPerTable (defs : Lmap ProviderDefinition) (id : String) : Bool :=
  match lookupL defs id with
  | some d => d.requiredFields.any (fun f => f.name ∈ apiKeySlotNames)
  | none => false

/-- Claim-side acceptance predicate, following the wording of C5: every
provider entry has a non-empty name, a non-empty modelId, a non-empty
apiKey only when the routing table sends a required field of that provider
to the apiKey slot, and a set defaultProvider exists in the providers
map. -/
def claimValidateAccepts (defs : Lmap ProviderDefinition) (c : CLIConfig) : Bool :=
  (c.defaultProvider == "" || containsL c.providers c.defaultProvider) &&
  c.providers.all (fun e =>
    e.2.name != "" && e.2.modelId != "" &&
    (!(requiresApiKeyPerTable defs e.1) || e.2.apiKey != ""))

/-- Text of the encryption note written by Save and createDefaultConfig. -/
def encryptionNoteText : String :=
  "API keys in this file are encrypted for security"

/-- createDefaultConfig from pkg/cli/config/manager.go. -/
def createDefaultConfig (now : Nat) : CLIConfig :=
  { version := "1.0.0", encryptionNote := encryptionNoteText,
    defaultProvider := "", providers := [], createdAt := now,
    updatedAt := now }

/-- ConfigManager.AddProvider: creates the default document when no config
is loaded and stores the provider under its own ID; it never fails. -/
def AddProvider (now : Nat) (st : Option CLIConfig) (p : ProviderConfig) :
    CLIConfig :=
  let c := st.getD (createDefaultConfig now)
  { c with providers := insertL c.providers p.id p }

/-- ConfigManager.RemoveProvider: fails when no config is loaded or the id
is absent; otherwise deletes the entry and clears defaultProvider when it
named the removed provider. -/
def RemoveProvider : Option CLIConfig → String → Except String CLIConfig
  | none, _ => .error "no config loaded"
  | some c, pid =>
    if containsL c.providers pid then
      .ok { c with
              providers := removeL c.providers pid,
              defaultProvider :=
                if c.defaultProvider = pid then "" else c.defaultProvider }
    else
      .error ("provider " ++ pid ++ " not found")

/-- ConfigManager.SetDefaultProvider: fails when no config is loaded or the
id is absent; otherwise records the id as default. -/
def SetDefaultProvider : Option CLIConfig → String → Except String CLIConfig
  | none, _ => .error "no config loaded"
  | some c, pid =>
    if containsL c.providers pid then
      .ok { c with defaultProvider := pid }
    else
      .error ("provider " ++ pid ++ " not found")

/-- Default-provider invariant of the data model: a non-empty default names
an existing provider entry. -/
def defaultOk (c : CLIConfig) : Prop :=
  c.defaultProvider ≠ "" → containsL c.providers c.defaultProvider = true

/-- Invariant lifted to the manager state (none is the nil config). -/
def invOpt : Option CLIConfig → Prop
  | none => True
  | some c => defaultOk c

/-- Filesystem operations that Save issues, in order; the written content
is carried as the structured document (serialisation is out of scope). -/
inductive FsOp where
  | mkdirAll (dir : String) (perm : Nat)
  | writeFile (path : String) (content : CLIConfig) (perm : Nat)
  | rename (src : String) (tgt : String)
deriving DecidableEq

/-- Whether a filesystem operation is a rename. -/
def FsOp.isRename : FsOp → Bool
  | .rename _ _ => true
  | _ => false

/-- Config directory used by GetConfigPath (home joined with .cline). -/
def configDir (home : String) : String := home ++ "/.cline"

/-- GetConfigPath from pkg/cli/config/manager.go. -/
def GetConfigPath (home : String) : String := configDir home ++ "/config.yaml"

/-- Encryption pass of Save over the copied providers map: every non-empty
apiKey is replaced by its encryption, other fields are copied. -/
def encryptProviders (enc : String → String) (ps : Lmap ProviderConfig) :
    Lmap ProviderConfig :=
  ps.map (fun e =>
    (e.1, if e.2.apiKey ≠ "" then { e.2 with apiKey := enc e.2.apiKey } else e.2))

/-- Document that ConfigManager.Save marshals: the copied config with
encrypted keys, updatedAt set to now, createdAt backfilled when zero, and
the fixed encryption note. -/
def SaveDoc (enc : String → String) (now : Nat) (c : CLIConfig) : CLIConfig :=
  let copy := { c with providers := encryptProviders enc c.providers }
  let copy := { copy with
                  updatedAt := now,
                  createdAt := if copy.createdAt = 0 then now else copy.createdAt }
  { copy with encryptionNote := encryptionNoteText }

/-- Filesystem trace of ConfigManager.Save: ensure the directory, then one
direct WriteFile of the marshalled document to the config path. -/
def SaveOps (enc : String → String) (now : Nat) (home : String)
    (c : CLIConfig) : List FsOp :=
  [FsOp.mkdirAll (configDir home) 493,
   FsOp.writeFile (GetConfigPath home) (SaveDoc enc now c) 384]

/-- Pointwise update of a function-modeled heap. -/
def updateF {α : Type} (f : Nat → α) (k : Nat) (v : α) : Nat → α :=
  fun n => if n = k then v else f n

/-- CLIConfig as a Go struct value whose Providers field is a reference
into a heap of maps (Go maps are reference types, so a struct copy shares
the map until the field is reassigned). -/
structure CLIConfigS where
  version : String
  encryptionNote : String
  defaultProvider : String
  providersRef : Nat
  createdAt : Nat
  updatedAt : Nat
deriving DecidableEq

/-- Heap for the aliasing model of Save: config structs and provider maps
addressed by naturals, with a fresh-allocation counter. -/
structure Heap where
  structs : Nat → CLIConfigS
  provMaps : Nat → Lmap ProviderConfig
  freshRef : Nat

/-- ConfigManager.Save without the I/O tail, in the aliasing model: read
the struct through the pointer, copy it, allocate a fresh map for the
copy, fill it with encrypted provider copies read from the original map,
and stamp timestamps and note on the copy only. Returns the heap after the
call and the document value handed to the marshaller. -/
def SaveHeap (enc : String → String) (now : Nat) (h : Heap) (cfgPtr : Nat) :
    Heap × CLIConfigS :=
  let config := h.structs cfgPtr
  let configCopy := config
  let r := h.freshRef
  let h1 : Heap := { h with
                       provMaps := updateF h.provMaps r [],
                       freshRef := h.freshRef + 1 }
  let configCopy := { configCopy with providersRef := r }
  let encrypted := encryptProviders enc (h1.provMaps config.providersRef)
  let h2 : Heap := { h1 with provMaps := updateF h1.provMaps r encrypted }
  let configCopy := { configCopy with
    updatedAt := now,
    createdAt := if configCopy.createdAt = 0 then now else configCopy.createdAt,
    encryptionNote := encryptionNoteText }
  (h2, configCopy)

/-- ConfigEncryptor from the config package, with the Go standard library
AES-GCM cipher and base64 codec abstracted: sealTail nonce pt is the
ciphertext-with-tag that gcm.Seal appends to its dst argument, aeadOpen is
gcm.Open, and b64encode and b64decode are the std base64 encoding. Byte
slices are modeled as char lists via the string-bytes correspondence. -/
structure ConfigEncryptor where
  nonceSize : Nat
  sealTail : List Char → List Char → List Char
  aeadOpen : List Char → List Char → Option (List Char)
  b64encode : List Char → String
  b64decode : String → Option (List Char)

/-- ConfigEncryptor.EncryptAPIKey: empty input stays empty; otherwise the
output is base64 of nonce followed by the sealed bytes (gcm.Seal with the
nonce as dst prepends it). -/
def EncryptAPIKey (ce : ConfigEncryptor) (nonce : List Char)
    (apiKey : String) : String :=
  if apiKey = "" then ""
  else ce.b64encode (nonce ++ ce.sealTail nonce apiKey.data)

/-- ConfigEncryptor.DecryptAPIKey: empty input stays empty; otherwise
base64-decode, reject short inputs, split off the nonce, and open. -/
def DecryptAPIKey (ce : ConfigEncryptor) (encryptedKey : String) :
    Except String String :=
  if encryptedKey = "" then .ok ""
  else
    match ce.b64decode encryptedKey with
    | none => .error "failed to decode encrypted key"
    | some ciphertext =>
      if ciphertext.length < ce.nonceSize then .error "ciphertext too short"
      else
        match ce.aeadOpen (ciphertext.take ce.nonceSize)
            (ciphertext.drop ce.nonceSize) with
        | none => .error "failed to decrypt API key"
        | some plaintext => .ok (String.mk plaintext)

/-- Outcome of the decode step of a model-list HTTP response body. -/
inductive DecodeOutcome where
  | malformed
  | decoded (models : Lmap ModelInfo)

/-- Outcome of one model-list HTTP exchange. -/
inductive HttpOutcome where
  | transportErr (msg : String)
  | response (code : Nat) (body : DecodeOutcome)

/-- Outcome of fetchWithContext: either the 10-second context fires first,
or the fetcher completes with an HTTP outcome. -/
inductive FetchEvent where
  | timeout
  | completed (o : HttpOutcome)

/-- The three concrete fetcher implementations. -/
inductive FetcherKind where
  | openrouter
  | ollama
  | openaiCompatible
deriving DecidableEq

/-- GetModelFetcher from pkg/cli/models/fetcher.go: the switch on provider
id; unknown ids have no fetcher. -/
def GetModelFetcher : String → Option FetcherKind
  | "openrouter" => some .openrouter
  | "ollama" => some .ollama
  | "openai" | "openai-native" | "groq" => some .openaiCompatible
  | _ => none

/-- Shared shape of the three FetchModels implementations over an HTTP
outcome: transport errors, non-200 statuses and body-decode failures each
produce an error; a decoded body produces the converted model map. -/
def FetchModels (fk : FetcherKind) : HttpOutcome → Except String (Lmap ModelInfo)
  | .transportErr msg => .error ("failed to fetch models: " ++ msg)
  | .response code body =>
    if code ≠ 200 then .error ("API returned status " ++ toString code)
    else
      match body with
      | .malformed => .error "failed to decode response"
      | .decoded models => .ok models

/-- fetchWithContext from pkg/cli/models/fetcher.go: a fired deadline wins
over the fetcher result. -/
def fetchWithContext (ev : FetchEvent) (fk : FetcherKind) :
    Except String (Lmap ModelInfo) :=
  match ev with
  | .timeout => .error "request timeout after 10s"
  | .completed o => FetchModels fk o

/-- getHardcodedModels from pkg/cli/models/fetcher.go: field-by-field copy
of the catalog models into config.ModelInfo records. -/
def getHardcodedModels (pd : ProviderDefinition) : Lmap ModelInfo :=
  pd.models.map (fun e =>
    (e.1, { maxTokens := e.2.maxTokens, contextWindow := e.2.contextWindow,
            supportsImages := e.2.supportsImages, inputPrice := e.2.inputPrice,
            outputPrice := e.2.outputPrice, description := e.2.description }))

/-- FetchModelsForProvider from pkg/cli/models/fetcher.go. -/
def FetchModelsForProvider (pd : ProviderDefinition) (ev : FetchEvent) :
    Lmap ModelInfo × Option String :=
  if !pd.hasDynamicModels then (getHardcodedModels pd, none)
  else
    match GetModelFetcher pd.id with
    | none => (getHardcodedModels pd, none)
    | some fk =>
      match fetchWithContext ev fk with
      | .error e =>
        (getHardcodedModels pd, some ("failed to fetch models from API: " ++ e))
      | .ok models =>
        if models.isEmpty then
          (getHardcodedModels pd, some "API returned no models")
        else
          (models, none)

/-- Dynamically typed value stored in a Go map of empty-interface values. -/
inductive GoVal where
  | bool (b : Bool)
  | str (s : String)
  | int (n : Int)
deriving DecidableEq

/-- Go type assertion v.(bool): none models the run-time panic on a value
of any other dynamic type. -/
def asBool : GoVal → Option Bool
  | .bool b => some b
  | _ => none

/-- Result of a Go call that can panic. -/
inductive GoResult (α : Type) where
  | panicked
  | err (msg : String)
  | ok (val : α)
deriving DecidableEq

/-- ProviderRegistry from the config package, holding the compiled
provider definitions. -/
structure ProviderRegistry where
  definitions : Lmap ProviderDefinition

/-- GetPopularProviders: the fixed curated list from the source. -/
def GetPopularProviders : List String :=
  ["cline", "openrouter", "openai", "anthropic", "xai", "ollama", "gemini",
   "deepseek", "groq", "cerebras"]

/-- Criterion extraction step of GetRecommendedProvider for one key: a
missing key leaves the flag false, a bool value is read, and any other
dynamic type panics (none). -/
def getFlag (criteria : Lmap GoVal) (key : String) : Option Bool :=
  match lookupL criteria key with
  | none => some false
  | some v => asBool v

/-- Per-model additive score of the recommender loop body. -/
def modelScore (needsImages needsFree needsLargeContext : Bool)
    (m : GenModelInfo) : Nat :=
  (if needsImages && m.supportsImages then 3 else 0) +
  (if needsFree && (m.inputPrice == 0) && (m.outputPrice == 0) then 2 else 0) +
  (if needsLargeContext && decide (100000 ≤ m.contextWindow) then 2 else 0)

/-- Model-capability part of a provider score: sum of the per-model
scores over the catalog models. -/
def providerModelsScore (ni nf nl : Bool) (models : Lmap GenModelInfo) : Nat :=
  models.foldl (fun acc e => acc + modelScore ni nf nl e.2) 0

/-- Scores map built by GetRecommendedProvider: local preference skips
every provider other than ollama and lmstudio and adds 10 to those two;
the model loop and the popular bonus add on top. -/
def scoresList (defs : Lmap ProviderDefinition) (ni nf nl nlo : Bool) :
    Lmap Nat :=
  defs.filterMap (fun e =>
    if nlo && !(e.1 == "ollama" || e.1 == "lmstudio") then none
    else some (e.1,
      (if nlo then 10 else 0) + providerModelsScore ni nf nl e.2.models +
      (if GetPopularProviders.contains e.1 then 1 else 0)))

/-- Highest-score selection loop of GetRecommendedProvider, starting from
the empty name and score zero and replacing on strictly greater scores. -/
def bestOf : Lmap Nat → (String × Nat) → (String × Nat)
  | [], acc => acc
  | e :: rest, acc => bestOf rest (if acc.2 < e.2 then e else acc)

/-- ProviderRegistry.GetRecommendedProvider: extract the four boolean
criteria with unchecked type assertions, score the providers, and return
the best scorer, failing when none scores above zero. -/
def GetRecommendedProvider (pr : ProviderRegistry) (criteria : Lmap GoVal) :
    GoResult String :=
  match getFlag criteria "images", getFlag criteria "free",
      getFlag criteria "large_context", getFlag criteria "local" with
  | some ni, some nf, some nl, some nlo =>
    let scores := scoresList pr.definitions ni nf nl nlo
    let best := bestOf scores ("", 0)
    if best.1 = "" then .err "no provider matches the specified criteria"
    else .ok best.1
  | _, _, _, _ => .panicked

/-- JSON values, for the tolerant modality decoder. -/
inductive Json where
  | null
  | bool (b : Bool)
  | num (q : ℚ)
  | str (s : String)
  | arr (elems : List Json)
  | obj (fields : List (String × Json))

/-- Go json.Unmarshal of a value into a []string: succeeds on an array of
strings and on null (yielding the nil slice), fails otherwise. -/
def decodeStringArray : Json → Option (List String)
  | .null => some []
  | .arr elems =>
    elems.mapM (fun j => match j with | .str s => some s | _ => none)
  | _ => none

/-- Go json.Unmarshal of a value into a string. -/
def decodeString : Json → Option String
  | .str s => some s
  | _ => none

/-- flexibleStringArray.UnmarshalJSON from pkg/cli/models/openrouter.go:
try the array decode, then the scalar decode, then the empty array; the
error component of the result is nil on every path. -/
def flexibleStringArrayUnmarshal (data : Json) : List String × Option String :=
  match decodeStringArray data with
  | some arr => (arr, none)
  | none =>
    match decodeString data with
    | some s => ([s], none)
    | none => ([], none)

/-- openRouterPricing: per-token prices as strings. -/
structure openRouterPricing where
  prompt : String
  completion : String

/-- openRouterTopProvider. -/
structure openRouterTopProvider where
  maxCompletionTokens : Option Int

/-- openRouterArchitecture, after its modality field went through the
tolerant decoder. -/
structure openRouterArchitecture where
  modality : List String

/-- openRouterModel: one model record of the OpenRouter response. -/
structure openRouterModel where
  id : String
  name : String
  description : Option String
  contextLength : Option Int
  topProvider : Option openRouterTopProvider
  architecture : Option openRouterArchitecture
  pricing : Option openRouterPricing

/-- safeString from pkg/cli/models/openrouter.go. -/
def safeString : Option String → String
  | none => ""
  | some s => s

/-- Context-window step of convertOpenRouterModel (the if on
model.ContextLength). -/
def orApplyContext (model : openRouterModel) (info : ModelInfo) : ModelInfo :=
  match model.contextLength with
  | some cl => { info with contextWindow := cl }
  | none => info

/-- Max-tokens step of convertOpenRouterModel (the nil checks on
model.TopProvider and its MaxCompletionTokens). -/
def orApplyMaxTokens (model : openRouterModel) (info : ModelInfo) : ModelInfo :=
  match model.topProvider with
  | some tp =>
    match tp.maxCompletionTokens with
    | some mt => { info with maxTokens := mt }
    | none => info
  | none => info

/-- Image-support step of convertOpenRouterModel: the loop over the decoded
modalities that sets SupportsImages on finding the value image. -/
def orApplyImages (model : openRouterModel) (info : ModelInfo) : ModelInfo :=
  match model.architecture with
  | some arch =>
    if arch.modality.any (fun m => m == "image") then
      { info with supportsImages := true }
    else info
  | none => info

/-- Pricing step of convertOpenRouterModel: per-token string prices parsed
and scaled by one million, each field only on parse success. -/
def orApplyPricing (parseFloat : String → Option ℚ)
    (model : openRouterModel) (info : ModelInfo) : ModelInfo :=
  match model.pricing with
  | some pricing =>
    let info := match parseFloat pricing.prompt with
      | some q => { info with inputPrice := q * 1000000 }
      | none => info
    match parseFloat pricing.completion with
    | some q => { info with outputPrice := q * 1000000 }
    | none => info
  | none => info

/-- convertOpenRouterModel from pkg/cli/models/openrouter.go, with the Go
strconv.ParseFloat abstracted as a parameter yielding exact rationals: the
sequential field updates of the source, applied in source order to the
zero record carrying the description. -/
def convertOpenRouterModel (parseFloat : String → Option ℚ)
    (model : openRouterModel) : ModelInfo :=
  orApplyPricing parseFloat model
    (orApplyImages model
      (orApplyMaxTokens model
        (orApplyContext model
          { ModelInfo.zero with description := safeString model.description })))

/-- Bedrock provider definition as fixed by the generated-package tests:
its required fields are the three AWS fields, all routed to extraConfig. -/
def bedrockDef : ProviderDefinition :=
  { id := "bedrock", name := "AWS Bedrock",
    requiredFields :=
      [⟨"awsAccessKey", true⟩, ⟨"awsSecretKey", true⟩, ⟨"awsRegion", true⟩],
    optionalFields := [], hasDynamicModels := false, models := [],
    defaultModelID := "", setupInstructions := "AWS Bedrock setup" }

/-- Bedrock provider entry whose credentials all live in extraConfig, with
an empty apiKey slot. -/
def bedrockEntry : ProviderConfig :=
  { id := "bedrock", name := "AWS Bedrock", apiKey := "", baseUrl := "",
    modelId := "anthropic.claude-sonnet", modelInfo := ModelInfo.zero,
    extraConfig := [("aws_access_key", "AKIA"), ("aws_secret_key", "wJal"),
                    ("aws_region", "us-east-1")] }

/-- Config document holding only the bedrock entry. -/
def bedrockConfig : CLIConfig :=
  { version := "1.0.0", encryptionNote := encryptionNoteText,
    defaultProvider := "", providers := [("bedrock", bedrockEntry)],
    createdAt := 1, updatedAt := 1 }

/-- Bedrock config with bedrock as the default provider. -/
def bedrockConfigD : CLIConfig :=
  { bedrockConfig with defaultProvider := "bedrock" }

/-- Anthropic definition sample: one image-capable model, popular. -/
def anthropicDef : ProviderDefinition :=
  { id := "anthropic", name := "Anthropic",
    requiredFields := [⟨"anthropicApiKey", true⟩], optionalFields := [],
    hasDynamicModels := false,
    models := [("claude-sonnet",
      { maxTokens := 8192, contextWindow := 200000, supportsImages := true,
        supportsPromptCache := true, inputPrice := 3, outputPrice := 15,
        description := "Claude Sonnet" })],
    defaultModelID := "claude-sonnet",
    setupInstructions := "Get a key from the Anthropic console" }

/-- Ollama definition sample: one free local model without image support. -/
def ollamaDef : ProviderDefinition :=
  { id := "ollama", name := "Ollama",
    requiredFields := [⟨"ollamaBaseUrl", true⟩], optionalFields := [],
    hasDynamicModels := true,
    models := [("llama3",
      { maxTokens := 2048, contextWindow := 8192, supportsImages := false,
        supportsPromptCache := false, inputPrice := 0, outputPrice := 0,
        description := "Llama 3" })],
    defaultModelID := "llama3",
    setupInstructions := "Run a local Ollama server" }

/-- OpenRouter definition sample with a built-in catalog model and dynamic
models enabled. -/
def openrouterDef : ProviderDefinition :=
  { id := "openrouter", name := "OpenRouter",
    requiredFields := [⟨"openRouterApiKey", true⟩], optionalFields := [],
    hasDynamicModels := true,
    models := [("auto",
      { maxTokens := 4096, contextWindow := 128000, supportsImages := false,
        supportsPromptCache := false, inputPrice := 1, outputPrice := 2,
        description := "Auto router" })],
    defaultModelID := "auto",
    setupInstructions := "Get a key from openrouter.ai" }

/-- Registry sample holding the anthropic and ollama definitions. -/
def sampleRegistry : ProviderRegistry :=
  { definitions := [("anthropic", anthropicDef), ("ollama", ollamaDef)] }

/-- Concrete config struct value for the heap witness, with providers map
stored at reference 0. -/
def sampleStruct : CLIConfigS :=
  { version := "1.0.0", encryptionNote := encryptionNoteText,
    defaultProvider := "", providersRef := 0, createdAt := 0, updatedAt := 0 }

/-- Concrete heap for the frame witness: one struct pointing at map 0, the
next fresh reference being 1. -/
def sampleHeap : Heap :=
  { structs := fun _ => sampleStruct,
    provMaps := fun _ => [("bedrock", bedrockEntry)], freshRef := 1 }

/-- Trivial instantiation of the abstract cipher-and-codec interface used
to witness the encryptor round-trip at concrete inputs. -/
def idEncryptor : ConfigEncryptor :=
  { nonceSize := 1, sealTail := fun _ pt => pt,
    aeadOpen := fun _ ct => some ct,
    b64encode := fun l => String.mk l,
    b64decode := fun s => some s.data }

/-- Valid single-provider configuration sample. -/
def anthropicConfig : CLIConfig :=
  { version := "1.0.0", encryptionNote := encryptionNoteText,
    defaultProvider := "anthropic",
    providers := [("anthropic",
      { id := "anthropic", name := "Anthropic", apiKey := "sk-1",
        baseUrl := "", modelId := "claude-sonnet",
        modelInfo := ModelInfo.zero, extraConfig := [] })],
    createdAt := 1, updatedAt := 1 }

/-- Concrete modality JSON for the C8 witness. -/
def c8json : Json := Json.arr [Json.str "text", Json.str "image"]

/-- Concrete pricing record for the C8 witness. -/
def c8pricing : openRouterPricing :=
  { prompt := "0.000002", completion := "0.00001" }

/-- Concrete parse function for the C8 witness. -/
def c8parse : String → Option ℚ := fun _ => some 2

/-- Concrete OpenRouter model record for the C8 witness, whose modality
list is the tolerant decode of c8json. -/
def c8model : openRouterModel :=
  { id := "gpt", name := "GPT", description := some "d",
    contextLength := some 128000,
    topProvider := some { maxCompletionTokens := some 4096 },
    architecture := some { modality := ["text", "image"] },
    pricing := some c8pricing }

/-- Writing a key into an association-list map and reading that key back
yields the written value. -/
theorem lookupL_insertL {α : Type} (m : Lmap α) (k : String) (v : α) :
    lookupL (insertL m k v) k = some v := by
  induction m with
  | nil => simp [insertL, lookupL]
  | cons e rest ih =>
    obtain ⟨k1, w⟩ := e
    by_cases h : k1 = k
    · simp [insertL, h, lookupL]
    · simp [insertL, h, lookupL, ih]

/-- The four field names on which the mapper and the validator route to
different slots: the mapper sends awsSessionToken to the well-known key
aws_session_token and the three base-url names to the baseUrl slot, while
the validator falls through to its default branch and checks the verbatim
field name inside extraConfig. -/
def mismatchedFieldNames : List String :=
  ["awsSessionToken", "openAiBaseUrl", "liteLLMBaseUrl", "fireworksBaseUrl"]

/-- C2 as stated is false: the field awsSessionToken with the non-empty
value tok is routed by the mapper into extraConfig under aws_session_token,
yet ValidateRequiredFields checks extraConfig under the verbatim name
awsSessionToken and reports the field missing instead of accepting. -/
theorem C2_counterexample :
    ("tok" : String) ≠ "" ∧
    ValidateRequiredFields "bedrock"
      (MapFieldToConfig ⟨"awsSessionToken", true⟩ "tok" ProviderConfig.empty)
      [⟨"awsSessionToken", true⟩] = some "awsSessionToken" := by
  exact ⟨by decide, by decide⟩

set_option maxHeartbeats 4000000 in
/-- C2 (amended): the field mapper and the required-field validator agree on
the destination slot for every field name except awsSessionToken,
openAiBaseUrl, liteLLMBaseUrl and fireworksBaseUrl: for every other
FieldDescriptor f and non-empty value v, after MapFieldToConfig writes v
into the slot it selects for f, ValidateRequiredFields on the required-field
list consisting of f accepts the resulting configuration. -/
theorem C2_mapper_validator_agree (f : ConfigField) (v : String)
    (pc : ProviderConfig) (pid : String) (hv : v ≠ "")
    (hf : f.name ∉ mismatchedFieldNames) :
    ValidateRequiredFields pid (MapFieldToConfig f v pc) [f] = none := by
  obtain ⟨fname, freq⟩ := f
  have h : requiredHasValue (MapFieldToConfig ⟨fname, freq⟩ v pc) fname = true := by
    unfold MapFieldToConfig
    dsimp only
    split <;>
      first
        | (dsimp only at hf; exact absurd (by decide) hf)
        | (simp only [requiredHasValue]; simp [lookupD, lookupL_insertL, hv])
  simp [ValidateRequiredFields, h]

/-- Witness for C2 (amended) at the concrete field anthropicApiKey with a
non-empty key on the empty provider config. -/
theorem C2_witness :
    ValidateRequiredFields "anthropic"
      (MapFieldToConfig ⟨"anthropicApiKey", true⟩ "sk-ant-test"
        ProviderConfig.empty)
      [⟨"anthropicApiKey", true⟩] = none :=
  C2_mapper_validator_agree ⟨"anthropicApiKey", true⟩ "sk-ant-test"
    ProviderConfig.empty "anthropic" (by decide) (by decide)

/-- Membership after a map write: the written key is present, and other
keys are present exactly when they were before. -/
theorem containsL_insertL {α : Type} (m : Lmap α) (k : String) (v : α)
    (key : String) :
    containsL (insertL m k v) key = (key = k || containsL m key) := by
  induction m with
  | nil => simp [insertL, containsL, eq_comm]
  | cons e rest ih =>
    obtain ⟨k1, w⟩ := e
    simp only [insertL]
    by_cases h : k1 = k
    · rw [if_pos h]
      subst h
      by_cases h2 : key = k1 <;> simp [containsL, h2, eq_comm]
    · rw [if_neg h]
      simp only [containsL, ih]
      by_cases h1 : k1 = key <;> by_cases h2 : key = k <;>
        simp [h1, h2]

/-- Membership after a map delete: keys other than the deleted one are
unaffected. -/
theorem containsL_removeL {α : Type} (m : Lmap α) (k key : String)
    (h : key ≠ k) :
    containsL (removeL m k) key = containsL m key := by
  induction m with
  | nil => simp [removeL, containsL]
  | cons e rest ih =>
    obtain ⟨k1, w⟩ := e
    by_cases h1 : k1 = k
    · subst h1
      have : k1 ≠ key := fun hc => h (hc ▸ rfl)
      simp_all [removeL, containsL]
    · by_cases h2 : k1 = key <;>
        simp_all [removeL, containsL]

/-- The encryption pass of Save preserves the key set of the providers
map. -/
theorem containsL_encryptProviders (enc : String → String)
    (ps : Lmap ProviderConfig) (key : String) :
    containsL (encryptProviders enc ps) key = containsL ps key := by
  induction ps with
  | nil => rfl
  | cons e rest ih =>
    simp only [encryptProviders, List.map] at ih ⊢
    simp only [containsL]
    rw [ih]

/-- Acceptance of the per-provider loop of Validate, as a pointwise
condition on the entries. -/
theorem validateProviders_none_iff (ps : Lmap ProviderConfig) :
    validateProviders ps = none ↔
      ∀ e ∈ ps, e.2.id = e.1 ∧ e.2.name ≠ "" ∧ e.2.apiKey ≠ "" ∧
        e.2.modelId ≠ "" := by
  induction ps with
  | nil => simp [validateProviders]
  | cons e rest ih =>
    obtain ⟨id, p⟩ := e
    constructor
    · intro h
      have h1 : p.id = id := by
        by_contra hc
        simp [validateProviders, hc] at h
      have h2 : p.name ≠ "" := by
        intro hc
        simp [validateProviders, h1, hc] at h
      have h3 : p.apiKey ≠ "" := by
        intro hc
        simp [validateProviders, h1, h2, hc] at h
      have h4 : p.modelId ≠ "" := by
        intro hc
        simp [validateProviders, h1, h2, h3, hc] at h
      have hrest : validateProviders rest = none := by
        simpa [validateProviders, h1, h2, h3, h4] using h
      intro f hf
      rcases List.mem_cons.mp hf with hf | hf
      · subst hf
        exact ⟨h1, h2, h3, h4⟩
      · exact (ih.mp hrest) f hf
    · intro h
      have he := h (id, p) (List.mem_cons_self _ _)
      simp only at he
      obtain ⟨e1, e2, e3, e4⟩ := he
      have : validateProviders rest = none :=
        ih.mpr (fun f hf => h f (List.mem_cons_of_mem _ hf))
      simp [validateProviders, e1, e2, e3, e4, this]

/-- C5 as stated is false: the bedrock entry has all its credentials in
extraConfig and an empty apiKey, the claim-side acceptance predicate holds
for it, yet the store Validate rejects the configuration with an
empty-API-key error. -/
theorem C5_counterexample :
    claimValidateAccepts [("bedrock", bedrockDef)] bedrockConfig = true ∧
    Validate (some bedrockConfig) =
      some "provider bedrock has empty API key" := by
  exact ⟨by decide, by decide⟩

/-- C5 (amended): the store Validate accepts a configuration iff every
provider entry has an id matching its key, a non-empty name, a non-empty
apiKey (unconditionally, even for providers whose required credentials
live in extraConfig), and a non-empty modelId, and a set defaultProvider
exists in the providers map. -/
theorem C5_validate_accepts_iff (c : CLIConfig) :
    Validate (some c) = none ↔
      ((c.defaultProvider ≠ "" →
          containsL c.providers c.defaultProvider = true) ∧
       ∀ e ∈ c.providers, e.2.id = e.1 ∧ e.2.name ≠ "" ∧
         e.2.apiKey ≠ "" ∧ e.2.modelId ≠ "") := by
  by_cases hd : c.defaultProvider ≠ "" ∧
      containsL c.providers c.defaultProvider = false
  · simp only [Validate, if_pos hd]
    constructor
    · intro h; cases h
    · rintro ⟨h1, _⟩
      have := h1 hd.1
      rw [this] at hd
      cases hd.2
  · simp only [Validate, if_neg hd]
    rw [validateProviders_none_iff]
    constructor
    · intro h
      refine ⟨?_, h⟩
      intro hne
      by_contra hc
      exact hd ⟨hne, by simpa using hc⟩
    · rintro ⟨_, h2⟩
      exact h2

/-- Witness for C5 (amended): a configuration whose single entry carries a
non-empty apiKey and modelId validates. -/
theorem C5_witness :
    Validate (some anthropicConfig) = none :=
  (C5_validate_accepts_iff anthropicConfig).mpr (by decide)

/-- C6: the default-provider invariant is preserved by AddProvider,
RemoveProvider and SetDefaultProvider; removing the provider that was the
default clears the default, and SetDefaultProvider fails on an id that is
not a key of the providers map. -/
theorem C6_default_provider_invariant (now : Nat) (st : Option CLIConfig)
    (p : ProviderConfig) (pid : String) (hinv : invOpt st) :
    invOpt (some (AddProvider now st p)) ∧
    (∀ c, RemoveProvider st pid = .ok c → invOpt (some c)) ∧
    (∀ c, SetDefaultProvider st pid = .ok c → invOpt (some c)) ∧
    (∀ c c2, st = some c → c.defaultProvider = pid →
      RemoveProvider st pid = .ok c2 → c2.defaultProvider = "") ∧
    (∀ c, st = some c → containsL c.providers pid = false →
      ∃ msg, SetDefaultProvider st pid = .error msg) := by
  refine ⟨?_, ?_, ?_, ?_, ?_⟩
  · cases st with
    | none =>
      intro hne
      simp [AddProvider, createDefaultConfig] at hne
    | some c =>
      intro hne
      simp only [AddProvider, Option.getD] at hne ⊢
      rw [containsL_insertL]
      have := hinv hne
      simp [this]
  · intro c2 hok
    cases st with
    | none => simp [RemoveProvider] at hok
    | some c =>
      simp only [RemoveProvider] at hok
      by_cases hc : containsL c.providers pid
      · rw [if_pos hc] at hok
        cases hok
        show defaultOk _
        intro hne
        by_cases hdp : c.defaultProvider = pid
        · simp [hdp] at hne
        · simp only [if_neg hdp] at hne ⊢
          rw [containsL_removeL _ _ _ hdp]
          exact hinv hne
      · rw [if_neg hc] at hok
        cases hok
  · intro c2 hok
    cases st with
    | none => simp [SetDefaultProvider] at hok
    | some c =>
      simp only [SetDefaultProvider] at hok
      by_cases hc : containsL c.providers pid
      · rw [if_pos hc] at hok
        cases hok
        intro _
        exact hc
      · rw [if_neg hc] at hok
        cases hok
  · intro c c2 hst hdp hok
    subst hst
    simp only [RemoveProvider] at hok
    by_cases hc : containsL c.providers pid
    · rw [if_pos hc] at hok
      cases hok
      simp [hdp]
    · rw [if_neg hc] at hok
      cases hok
  · intro c hst hc
    subst hst
    simp [SetDefaultProvider, hc]

/-- Witness for C6 at a concrete state: adding the bedrock entry to the
config whose default is bedrock keeps the invariant. -/
theorem C6_witness :
    invOpt (some (AddProvider 0 (some bedrockConfigD) bedrockEntry)) :=
  (C6_default_provider_invariant 0 (some bedrockConfigD) bedrockEntry
    "bedrock" (by intro hne; decide)).1

/-- C1 as stated is false at a concrete configuration: the filesystem trace
of Save contains no rename onto the config path at all; Save writes the
document directly. -/
theorem C1_counterexample :
    ¬ ∃ tmp, FsOp.rename tmp (GetConfigPath "/home/u") ∈
      SaveOps (fun s => s) 5 "/home/u" bedrockConfig := by
  rintro ⟨tmp, h⟩
  simp [SaveOps] at h

/-- C1 (amended): Save ensures the config directory exists and then writes
the serialised document in a single direct WriteFile to the target path
with owner-only permissions; it performs no temp-file-plus-rename step.
The written document is the complete encrypted copy, which preserves the
default-provider invariant of its input. -/
theorem C1_save_direct_write (enc : String → String) (now : Nat)
    (home : String) (c : CLIConfig) :
    SaveOps enc now home c =
      [FsOp.mkdirAll (configDir home) 493,
       FsOp.writeFile (GetConfigPath home) (SaveDoc enc now c) 384] ∧
    (∀ op ∈ SaveOps enc now home c, op.isRename = false) ∧
    (defaultOk c → defaultOk (SaveDoc enc now c)) := by
  refine ⟨rfl, ?_, ?_⟩
  · intro op hop
    simp [SaveOps] at hop
    rcases hop with h | h <;> subst h <;> rfl
  · intro hd hne
    simp only [SaveDoc] at hne ⊢
    rw [containsL_encryptProviders]
    exact hd hne

/-- Witness for C1 (amended) at a concrete configuration whose default
provider is set. -/
theorem C1_witness :
    defaultOk (SaveDoc (fun s => s) 5 bedrockConfigD) :=
  (C1_save_direct_write (fun s => s) 5 "/home/u" bedrockConfigD).2.2
    (by intro hne; decide)

/-- C9: Save mutates only its private copy. In the aliasing model, the
heap of config structs is untouched, the providers map the argument points
at is untouched (so every apiKey the caller sees keeps its plaintext
value), and the encrypted providers and refreshed updatedAt exist only in
the freshly allocated copy handed to the marshaller. -/
theorem C9_save_frame (enc : String → String) (now : Nat) (h : Heap)
    (cfgPtr : Nat)
    (hp : (h.structs cfgPtr).providersRef < h.freshRef) :
    (SaveHeap enc now h cfgPtr).1.structs = h.structs ∧
    (SaveHeap enc now h cfgPtr).1.provMaps (h.structs cfgPtr).providersRef =
      h.provMaps (h.structs cfgPtr).providersRef ∧
    (SaveHeap enc now h cfgPtr).2.providersRef = h.freshRef ∧
    (SaveHeap enc now h cfgPtr).1.provMaps h.freshRef =
      encryptProviders enc (h.provMaps (h.structs cfgPtr).providersRef) ∧
    (SaveHeap enc now h cfgPtr).2.updatedAt = now := by
  have hne : (h.structs cfgPtr).providersRef ≠ h.freshRef := Nat.ne_of_lt hp
  refine ⟨rfl, ?_, rfl, ?_, rfl⟩
  · simp [SaveHeap, updateF, hne]
  · simp [SaveHeap, updateF, hne]

/-- Witness for C9 at the concrete one-struct heap. -/
theorem C9_witness :
    (SaveHeap (fun s => s) 7 sampleHeap 0).1.provMaps
        (sampleHeap.structs 0).providersRef =
      sampleHeap.provMaps (sampleHeap.structs 0).providersRef :=
  (C9_save_frame (fun s => s) 7 sampleHeap 0 (by decide)).2.1

/-- C3: for every cipher-and-codec instance satisfying the standard-library
contracts at the used inputs (base64 decode inverts encode, the AEAD open
inverts seal under the same nonce, the nonce has the advertised size, and
base64 of a non-empty payload is non-empty), DecryptAPIKey inverts
EncryptAPIKey on every string, and both operations map the empty string to
the empty string. -/
theorem C3_encrypt_roundtrip (ce : ConfigEncryptor) (nonce : List Char)
    (s : String)
    (hn : nonce.length = ce.nonceSize)
    (hb : ce.b64decode (ce.b64encode (nonce ++ ce.sealTail nonce s.data)) =
      some (nonce ++ ce.sealTail nonce s.data))
    (hne : ce.b64encode (nonce ++ ce.sealTail nonce s.data) ≠ "")
    (hopen : ce.aeadOpen nonce (ce.sealTail nonce s.data) = some s.data) :
    DecryptAPIKey ce (EncryptAPIKey ce nonce s) = .ok s ∧
    EncryptAPIKey ce nonce "" = "" ∧
    DecryptAPIKey ce "" = .ok "" := by
  refine ⟨?_, rfl, rfl⟩
  by_cases hs : s = ""
  · subst hs
    simp [EncryptAPIKey, DecryptAPIKey]
  · unfold EncryptAPIKey DecryptAPIKey
    rw [if_neg hs, if_neg hne, hb]
    have hlen : ¬ (nonce ++ ce.sealTail nonce s.data).length < ce.nonceSize := by
      simp only [List.length_append, hn]
      omega
    have ht : (nonce ++ ce.sealTail nonce s.data).take ce.nonceSize = nonce := by
      rw [← hn]
      exact List.take_left _ _
    have hd : (nonce ++ ce.sealTail nonce s.data).drop ce.nonceSize =
        ce.sealTail nonce s.data := by
      rw [← hn]
      exact List.drop_left _ _
    dsimp only
    rw [if_neg hlen, ht, hd, hopen]

/-- Witness for C3 at the trivial cipher instance, a one-char nonce and the
key sk-test. -/
theorem C3_witness :
    DecryptAPIKey idEncryptor (EncryptAPIKey idEncryptor ['n'] "sk-test") =
      .ok "sk-test" ∧
    EncryptAPIKey idEncryptor ['n'] "" = "" ∧
    DecryptAPIKey idEncryptor "" = .ok "" :=
  C3_encrypt_roundtrip idEncryptor ['n'] "sk-test" rfl rfl (by decide) rfl

/-- C4: FetchModelsForProvider returns the catalog models without error
when dynamic models are off or no fetcher exists; with a fetcher, a
timeout, transport error, non-200 status or decode failure each produce an
error from the fetch layer, and on any fetch error or an empty fetched map
the caller still receives the catalog models paired with a non-fatal
error, while a non-empty fetched map is returned as-is without error. -/
theorem C4_fetch_fallback (pd : ProviderDefinition) (ev : FetchEvent)
    (fk : FetcherKind) :
    (pd.hasDynamicModels = false →
      FetchModelsForProvider pd ev = (getHardcodedModels pd, none)) ∧
    (GetModelFetcher pd.id = none →
      FetchModelsForProvider pd ev = (getHardcodedModels pd, none)) ∧
    (pd.hasDynamicModels = true → GetModelFetcher pd.id = some fk →
      (∀ e, fetchWithContext ev fk = .error e →
        FetchModelsForProvider pd ev =
          (getHardcodedModels pd,
           some ("failed to fetch models from API: " ++ e))) ∧
      (fetchWithContext ev fk = .ok [] →
        FetchModelsForProvider pd ev =
          (getHardcodedModels pd, some "API returned no models")) ∧
      (∀ ms, fetchWithContext ev fk = .ok ms → ms ≠ [] →
        FetchModelsForProvider pd ev = (ms, none))) ∧
    fetchWithContext .timeout fk = .error "request timeout after 10s" ∧
    (∀ m, fetchWithContext (.completed (.transportErr m)) fk =
      .error ("failed to fetch models: " ++ m)) ∧
    (∀ code body, code ≠ 200 →
      fetchWithContext (.completed (.response code body)) fk =
        .error ("API returned status " ++ toString code)) ∧
    fetchWithContext (.completed (.response 200 .malformed)) fk =
      .error "failed to decode response" := by
  refine ⟨?_, ?_, ?_, rfl, fun m => rfl, ?_, ?_⟩
  · intro h
    simp [FetchModelsForProvider, h]
  · intro h
    by_cases hdm : pd.hasDynamicModels
    · simp [FetchModelsForProvider, hdm, h]
    · simp [FetchModelsForProvider, hdm]
  · intro hdm hfk
    refine ⟨?_, ?_, ?_⟩
    · intro e he
      simp [FetchModelsForProvider, hdm, hfk, he]
    · intro he
      simp [FetchModelsForProvider, hdm, hfk, he]
    · intro ms hms hne
      simp [FetchModelsForProvider, hdm, hfk, hms, hne]
  · intro code body hc
    simp [fetchWithContext, FetchModels, hc]
  · simp [fetchWithContext, FetchModels]

/-- Witness for C4: openrouter with dynamic models on and a transport
error falls back to the catalog models with a non-fatal error. -/
theorem C4_witness :
    FetchModelsForProvider openrouterDef
        (.completed (.transportErr "connection refused")) =
      (getHardcodedModels openrouterDef,
       some ("failed to fetch models from API: " ++
         "failed to fetch models: connection refused")) :=
  ((C4_fetch_fallback openrouterDef
      (.completed (.transportErr "connection refused")) .openrouter).2.2.1
    rfl rfl).1 "failed to fetch models: connection refused" rfl

/-- The selection loop never lowers the running best score, and every
scanned score is bounded by the final best score. -/
theorem bestOf_le (l : Lmap Nat) (acc : String × Nat) :
    acc.2 ≤ (bestOf l acc).2 ∧ ∀ e ∈ l, e.2 ≤ (bestOf l acc).2 := by
  induction l generalizing acc with
  | nil => exact ⟨le_refl _, by simp⟩
  | cons e rest ih =>
    simp only [bestOf]
    by_cases hc : acc.2 < e.2
    · rw [if_pos hc]
      obtain ⟨h1, h2⟩ := ih e
      refine ⟨le_trans (le_of_lt hc) h1, ?_⟩
      intro f hf
      rcases List.mem_cons.mp hf with hf | hf
      · rw [hf]; exact h1
      · exact h2 f hf
    · rw [if_neg hc]
      obtain ⟨h1, h2⟩ := ih acc
      refine ⟨h1, ?_⟩
      intro f hf
      rcases List.mem_cons.mp hf with hf | hf
      · rw [hf]; exact le_trans (le_of_not_lt hc) h1
      · exact h2 f hf

/-- The selection loop returns either its accumulator or a scanned entry
whose score strictly beats the accumulator. -/
theorem bestOf_cases (l : Lmap Nat) (acc : String × Nat) :
    bestOf l acc = acc ∨
      (bestOf l acc ∈ l ∧ acc.2 < (bestOf l acc).2) := by
  induction l generalizing acc with
  | nil => left; rfl
  | cons e rest ih =>
    simp only [bestOf]
    by_cases hc : acc.2 < e.2
    · rw [if_pos hc]
      rcases ih e with h | ⟨h1, h2⟩
      · right
        rw [h]
        exact ⟨List.mem_cons_self _ _, hc⟩
      · right
        exact ⟨List.mem_cons_of_mem _ h1, lt_trans hc h2⟩
    · rw [if_neg hc]
      rcases ih acc with h | ⟨h1, h2⟩
      · left; exact h
      · right
        exact ⟨List.mem_cons_of_mem _ h1, h2⟩

/-- Folding addition from an arbitrary start is the start plus the fold
from zero. -/
theorem foldl_add_init {α : Type} (f : α → Nat) (l : List α) (init : Nat) :
    l.foldl (fun acc x => acc + f x) init =
      init + l.foldl (fun acc x => acc + f x) 0 := by
  induction l generalizing init with
  | nil => simp
  | cons e rest ih =>
    simp only [List.foldl]
    rw [ih (init + f e), ih (0 + f e)]
    omega

/-- Closed form of the model-capability score: each requested criterion
contributes its fixed weight once per matching catalog model. -/
theorem providerModelsScore_closed (ni nf nl : Bool)
    (models : Lmap GenModelInfo) :
    providerModelsScore ni nf nl models =
      (if ni then 3 * models.countP (fun e => e.2.supportsImages) else 0) +
      (if nf then 2 * models.countP
        (fun e => (e.2.inputPrice == 0) && (e.2.outputPrice == 0)) else 0) +
      (if nl then 2 * models.countP
        (fun e => decide (100000 ≤ e.2.contextWindow)) else 0) := by
  induction models with
  | nil => simp [providerModelsScore]
  | cons e rest ih =>
    have hstep : providerModelsScore ni nf nl (e :: rest) =
        modelScore ni nf nl e.2 + providerModelsScore ni nf nl rest := by
      simp only [providerModelsScore, List.foldl]
      rw [foldl_add_init _ rest (0 + modelScore ni nf nl e.2)]
      omega
    rw [hstep, ih]
    simp only [List.countP_cons, modelScore]
    cases ni <;> cases nf <;> cases nl <;>
      cases he1 : e.2.supportsImages <;>
      cases he2 : ((e.2.inputPrice == 0) && (e.2.outputPrice == 0)) <;>
      cases he3 : decide (100000 ≤ e.2.contextWindow) <;>
      simp [he1, he2, he3] <;> omega

/-- Under the local criterion, an entry of the scores map can only belong
to one of the two local providers. -/
theorem scoresList_local (defs : Lmap ProviderDefinition) (ni nf nl : Bool)
    (e : String × Nat) (he : e ∈ scoresList defs ni nf nl true) :
    e.1 = "ollama" ∨ e.1 = "lmstudio" := by
  simp only [scoresList, List.mem_filterMap] at he
  obtain ⟨a, _, hfa⟩ := he
  by_cases hc : (a.1 == "ollama" || a.1 == "lmstudio") = true
  · rw [if_neg (by simp [hc])] at hfa
    have h1 : e.1 = a.1 := by
      cases hfa
      rfl
    rw [h1]
    simpa using hc
  · rw [if_pos (by simp_all)] at hfa
    cases hfa

/-- C7: with boolean criteria, the recommender returns a provider whose
score is maximal over the scores map and strictly positive; it errors when
no provider scores above zero; the local criterion restricts the scored
candidates to ollama and lmstudio; and the capability part of each score
is additive, with fixed weights 3, 2 and 2 per matching model. -/
theorem C7_recommender (pr : ProviderRegistry) (criteria : Lmap GoVal)
    (ni nf nl nlo : Bool)
    (h1 : getFlag criteria "images" = some ni)
    (h2 : getFlag criteria "free" = some nf)
    (h3 : getFlag criteria "large_context" = some nl)
    (h4 : getFlag criteria "local" = some nlo) :
    (∀ p, GetRecommendedProvider pr criteria = .ok p →
      ∃ s, (p, s) ∈ scoresList pr.definitions ni nf nl nlo ∧ 0 < s ∧
        ∀ e ∈ scoresList pr.definitions ni nf nl nlo, e.2 ≤ s) ∧
    ((∀ e ∈ scoresList pr.definitions ni nf nl nlo, e.2 = 0) →
      GetRecommendedProvider pr criteria =
        .err "no provider matches the specified criteria") ∧
    (nlo = true → ∀ e ∈ scoresList pr.definitions ni nf nl nlo,
      e.1 = "ollama" ∨ e.1 = "lmstudio") ∧
    (∀ models, providerModelsScore ni nf nl models =
      (if ni then 3 * models.countP (fun e => e.2.supportsImages) else 0) +
      (if nf then 2 * models.countP
        (fun e => (e.2.inputPrice == 0) && (e.2.outputPrice == 0)) else 0) +
      (if nl then 2 * models.countP
        (fun e => decide (100000 ≤ e.2.contextWindow)) else 0)) := by
  have hrw : GetRecommendedProvider pr criteria =
      (if (bestOf (scoresList pr.definitions ni nf nl nlo) ("", 0)).1 = ""
       then .err "no provider matches the specified criteria"
       else .ok (bestOf (scoresList pr.definitions ni nf nl nlo) ("", 0)).1) := by
    unfold GetRecommendedProvider
    rw [h1, h2, h3, h4]
  refine ⟨?_, ?_, ?_, fun models => providerModelsScore_closed ni nf nl models⟩
  · intro p hok
    rw [hrw] at hok
    by_cases hb : (bestOf (scoresList pr.definitions ni nf nl nlo) ("", 0)).1 = ""
    · rw [if_pos hb] at hok
      cases hok
    · rw [if_neg hb] at hok
      cases hok
      rcases bestOf_cases (scoresList pr.definitions ni nf nl nlo) ("", 0)
        with h | ⟨hmem, hlt⟩
      · rw [h] at hb
        simp at hb
      · refine ⟨(bestOf (scoresList pr.definitions ni nf nl nlo) ("", 0)).2,
          ?_, hlt, (bestOf_le _ _).2⟩
        simpa using hmem
  · intro hz
    rw [hrw]
    rcases bestOf_cases (scoresList pr.definitions ni nf nl nlo) ("", 0)
      with h | ⟨hmem, hlt⟩
    · rw [h]
      simp
    · have := hz _ hmem
      rw [this] at hlt
      cases hlt
  · intro hlo e he
    subst hlo
    exact scoresList_local pr.definitions ni nf nl e he

/-- Witness for C7: with the images criterion on the sample registry, the
recommender picks anthropic, whose score is maximal and positive. -/
theorem C7_witness :
    ∃ s, ("anthropic", s) ∈
        scoresList sampleRegistry.definitions true false false false ∧
      0 < s ∧
      ∀ e ∈ scoresList sampleRegistry.definitions true false false false,
        e.2 ≤ s :=
  (C7_recommender sampleRegistry [("images", GoVal.bool true)]
    true false false false rfl rfl rfl rfl).1 "anthropic" (by decide)

/-- C10: binding any of the recognised criteria keys to a non-boolean
value makes GetRecommendedProvider panic through its unchecked type
assertion rather than return an error. -/
theorem C10_criteria_type_panic (v : GoVal) (hv : asBool v = none) :
    GetRecommendedProvider sampleRegistry [("images", v)] = .panicked := by
  unfold GetRecommendedProvider
  simp [getFlag, lookupL, hv]

/-- Witness for C10 at a concrete string-valued criterion. -/
theorem C10_witness :
    GetRecommendedProvider sampleRegistry [("images", GoVal.str "yes")] =
      .panicked :=
  C10_criteria_type_panic (GoVal.str "yes") rfl

/-- The context step changes no field other than contextWindow. -/
theorem orApplyContext_frame (model : openRouterModel) (info : ModelInfo) :
    (orApplyContext model info).supportsImages = info.supportsImages ∧
    (orApplyContext model info).inputPrice = info.inputPrice ∧
    (orApplyContext model info).outputPrice = info.outputPrice := by
  unfold orApplyContext
  cases model.contextLength <;> exact ⟨rfl, rfl, rfl⟩

/-- The max-tokens step changes no field other than maxTokens. -/
theorem orApplyMaxTokens_frame (model : openRouterModel) (info : ModelInfo) :
    (orApplyMaxTokens model info).supportsImages = info.supportsImages ∧
    (orApplyMaxTokens model info).inputPrice = info.inputPrice ∧
    (orApplyMaxTokens model info).outputPrice = info.outputPrice := by
  unfold orApplyMaxTokens
  cases model.topProvider with
  | none => exact ⟨rfl, rfl, rfl⟩
  | some tp =>
    dsimp only
    cases tp.maxCompletionTokens <;> exact ⟨rfl, rfl, rfl⟩

/-- The image step leaves the prices alone and computes supportsImages
from the modalities: true exactly when one equals image, given it was
false before. -/
theorem orApplyImages_spec (model : openRouterModel) (info : ModelInfo) :
    (orApplyImages model info).inputPrice = info.inputPrice ∧
    (orApplyImages model info).outputPrice = info.outputPrice ∧
    (info.supportsImages = false →
      (orApplyImages model info).supportsImages =
        (match model.architecture with
         | some arch => arch.modality.any (fun m => m == "image")
         | none => false)) := by
  unfold orApplyImages
  cases model.architecture with
  | none => exact ⟨rfl, rfl, fun h => h⟩
  | some arch =>
    dsimp only
    by_cases hc : arch.modality.any (fun m => m == "image") = true
    · rw [if_pos hc]
      exact ⟨rfl, rfl, fun _ => hc.symm⟩
    · rw [if_neg hc]
      refine ⟨rfl, rfl, fun h => ?_⟩
      rw [h]
      exact (Bool.not_eq_true _).mp hc |>.symm

/-- The pricing step leaves supportsImages alone and sets each price to
the parsed value scaled by one million on parse success, keeping the old
value on failure. -/
theorem orApplyPricing_spec (parseFloat : String → Option ℚ)
    (model : openRouterModel) (info : ModelInfo) :
    (orApplyPricing parseFloat model info).supportsImages =
      info.supportsImages ∧
    (∀ pricing, model.pricing = some pricing →
      (orApplyPricing parseFloat model info).inputPrice =
        (match parseFloat pricing.prompt with
         | some q => q * 1000000
         | none => info.inputPrice) ∧
      (orApplyPricing parseFloat model info).outputPrice =
        (match parseFloat pricing.completion with
         | some q => q * 1000000
         | none => info.outputPrice)) := by
  unfold orApplyPricing
  cases hp : model.pricing with
  | none =>
    refine ⟨rfl, fun pricing hc => ?_⟩
    cases hc
  | some pricing =>
    dsimp only
    refine ⟨?_, fun pricing2 hc => ?_⟩
    · cases parseFloat pricing.prompt <;>
        cases parseFloat pricing.completion <;> rfl
    · have he : pricing2 = pricing := by
        injection hc with hc
        exact hc.symm
      subst he
      cases parseFloat pricing2.prompt <;>
        cases parseFloat pricing2.completion <;> exact ⟨rfl, rfl⟩

/-- C8: the modality decoder accepts an array of strings, falls back to a
single string, yields the empty list when both decodes fail, and never
returns an error; the converted model supports images exactly when some
decoded modality equals image; and each price is the parsed string price
scaled by one million (price zero when parsing fails). -/
theorem C8_openrouter_normalisation (parseFloat : String → Option ℚ)
    (j : Json) (model : openRouterModel) (pricing : openRouterPricing) :
    (∀ xs, decodeStringArray j = some xs →
      flexibleStringArrayUnmarshal j = (xs, none)) ∧
    (∀ s, decodeStringArray j = none → decodeString j = some s →
      flexibleStringArrayUnmarshal j = ([s], none)) ∧
    (decodeStringArray j = none → decodeString j = none →
      flexibleStringArrayUnmarshal j = ([], none)) ∧
    (flexibleStringArrayUnmarshal j).2 = none ∧
    (model.architecture = some ⟨(flexibleStringArrayUnmarshal j).1⟩ →
      ((convertOpenRouterModel parseFloat model).supportsImages = true ↔
        "image" ∈ (flexibleStringArrayUnmarshal j).1)) ∧
    (model.pricing = some pricing →
      (convertOpenRouterModel parseFloat model).inputPrice =
        (match parseFloat pricing.prompt with
         | some q => q * 1000000
         | none => 0) ∧
      (convertOpenRouterModel parseFloat model).outputPrice =
        (match parseFloat pricing.completion with
         | some q => q * 1000000
         | none => 0)) := by
  have hbase :
      (orApplyImages model
        (orApplyMaxTokens model
          (orApplyContext model
            { ModelInfo.zero with
              description := safeString model.description }))).supportsImages =
        (match model.architecture with
         | some arch => arch.modality.any (fun m => m == "image")
         | none => false) := by
    refine (orApplyImages_spec model _).2.2 ?_
    rw [(orApplyMaxTokens_frame model _).1, (orApplyContext_frame model _).1]
    rfl
  have hprice0 :
      (orApplyImages model
        (orApplyMaxTokens model
          (orApplyContext model
            { ModelInfo.zero with
              description := safeString model.description }))).inputPrice = 0 ∧
      (orApplyImages model
        (orApplyMaxTokens model
          (orApplyContext model
            { ModelInfo.zero with
              description := safeString model.description }))).outputPrice = 0 := by
    constructor
    · rw [(orApplyImages_spec model _).1, (orApplyMaxTokens_frame model _).2.1,
        (orApplyContext_frame model _).2.1]
      rfl
    · rw [(orApplyImages_spec model _).2.1,
        (orApplyMaxTokens_frame model _).2.2, (orApplyContext_frame model _).2.2]
      rfl
  refine ⟨?_, ?_, ?_, ?_, ?_, ?_⟩
  · intro xs hxs
    simp [flexibleStringArrayUnmarshal, hxs]
  · intro s ha hs
    simp [flexibleStringArrayUnmarshal, ha, hs]
  · intro ha hs
    simp [flexibleStringArrayUnmarshal, ha, hs]
  · unfold flexibleStringArrayUnmarshal
    split
    · rfl
    · split <;> rfl
  · intro harch
    unfold convertOpenRouterModel
    rw [(orApplyPricing_spec parseFloat model _).1, hbase, harch]
    dsimp only
    rw [List.any_eq_true]
    constructor
    · rintro ⟨x, hx, he⟩
      rw [beq_iff_eq] at he
      exact he ▸ hx
    · intro h
      exact ⟨"image", h, by simp⟩
  · intro hp
    obtain ⟨hi, ho⟩ := (orApplyPricing_spec parseFloat model _).2 pricing hp
    unfold convertOpenRouterModel
    rw [hi, ho, hprice0.1, hprice0.2]
    exact ⟨rfl, rfl⟩

/-- Witness for C8 at a concrete array-valued modality and concrete
pricing. -/
theorem C8_witness :
    (convertOpenRouterModel c8parse c8model).supportsImages = true :=
  ((C8_openrouter_normalisation c8parse c8json c8model c8pricing).2.2.2.2.1
    rfl).mpr (by decide)

end Cline
